import Mathlib

/-!
# Verification of the tool-invocation protocol layer

A shallow embedding, in Lean, of the request/response tool-invocation
protocol code of this repository:

* the streaming-HTTP (SSE) client `MCPSSEClient.send_request`
  (`weather/test_weather_sse.py`),
* the weather server dispatch `call_tool` (`weather/weather_mcp_server.py`),
* the stock ledger tools `write_portfolio`, `buy_stock`, `sell_stock`,
  `debit_money` (`stock-utility/stockUtilityMCP.py`),
* the RAG search tool `document_search` (`RAG/mcp_chroma_server.py`).

External collaborators (the JSON decoder `json.loads`, the HTTP transport,
the vector store, Python's float formatting) are modelled as explicit
function parameters or input data; everything else is translated from the
source.  Python strings are modelled as Lean `String`, with the operations
the source uses (`startswith`, slicing, `strip`, `upper`, `in`) re-implemented
by structural recursion on the character list so that concrete runs reduce
in the kernel.  Python floats are idealised as exact rationals, with
`round(x, 2)` modelled by `round2`.
-/

/-! ## Python string primitives -/

/-- Python `s.startswith(pre)`. -/
def pyStartsWith (s pre : String) : Bool := pre.data.isPrefixOf s.data

/-- Python `s[n:]` (slice from character index `n`). -/
def pySlice (s : String) (n : Nat) : String := ⟨s.data.drop n⟩

/-- Python `s.strip()`: remove leading and trailing whitespace. -/
def pyStrip (s : String) : String :=
  ⟨((s.data.dropWhile Char.isWhitespace).reverse.dropWhile Char.isWhitespace).reverse⟩

/-- Python `s.upper()`. -/
def pyUpper (s : String) : String := ⟨s.data.map Char.toUpper⟩

/-- Auxiliary scan for substring containment. -/
def infixAux (n : List Char) : List Char → Bool
  | [] => n.isEmpty
  | c :: t => n.isPrefixOf (c :: t) || infixAux n t

/-- Python `needle in hay` for two strings: substring containment. -/
def pyInStr (needle hay : String) : Bool := infixAux needle.data hay.data

/-! ## JSON values and Python's dynamic operations on them -/

/-- A decoded JSON value, as produced by `json.loads`. -/
inductive Json where
  | null
  | bool (b : Bool)
  | num (q : ℚ)
  | str (s : String)
  | arr (elems : List Json)
  | obj (fields : List (String × Json))

/-- Whether a JSON value is the given string (used for Python `in` on lists). -/
def Json.isStrVal (s : String) : Json → Bool
  | .str t => s == t
  | _ => false

/-- Python `needle in v` for a string `needle` and a decoded JSON value `v`:
key membership for a dict, element equality for a list, substring test for a
string, and a `TypeError` (modelled as `.error ()`) for the other shapes. -/
def pyIn (needle : String) : Json → Except Unit Bool
  | .obj fields => .ok (fields.any fun f => f.1 == needle)
  | .arr elems => .ok (elems.any (Json.isStrVal needle))
  | .str s => .ok (pyInStr needle s)
  | _ => .error ()

/-- Python `v.get(key, dflt)`: dictionary lookup with a default; an
`AttributeError` (modelled as `.error ()`) when `v` is not a dict. -/
def pyGet (v : Json) (key : String) (dflt : Json) : Except Unit Json :=
  match v with
  | .obj fields => .ok ((fields.lookup key).getD dflt)
  | _ => .error ()

/-! ## The streaming-HTTP (SSE) client, `weather/test_weather_sse.py`

`MCPSSEClient.send_request` (lines 23-150) opens a GET event stream, reads
it line by line, tracks the most recent `event:` label, resolves the POST
endpoint from the `endpoint` event, performs the implicit `initialize`
handshake when necessary, POSTs the caller's request, and returns the first
decoded stream payload carrying a `result` or `error` membership.

The JSON decoder `json.loads` is an external collaborator and is passed in
as a parameter `dec : String → Option Json` (`none` models
`json.JSONDecodeError`).  The HTTP transport is modelled by the input data:
a `Conn` value describes how the connection attempt went and which lines
the stream delivers.  Each POST performed by the client is recorded in an
output trace, tagged with the value of `self.initialized` at the moment the
POST statement runs; computed endpoint URLs are recorded likewise.  The
blanket `except Exception` handler (lines 146-150) is modelled by the
`abort` outcome, which makes `send_request` return `none`.
-/

/-- A JSON-RPC request payload `{"jsonrpc": "2.0", "id": ..., "method": ...,
"params": ...}` as built by `send_request` (lines 30-35) and by the implicit
handshake (lines 73-85). -/
structure Request where
  id : Nat
  method : String
  params : Json

/-- The `params` of the implicit `initialize` call (lines 77-85). -/
def initParams : Json :=
  .obj [("protocolVersion", .str "2024-11-05"),
        ("capabilities", .obj []),
        ("clientInfo", .obj [("name", .str "weather-client"),
                             ("version", .str "1.0.0")])]

/-- The implicit `initialize` request payload (lines 73-85). -/
def initRequest (id : Nat) : Request := ⟨id, "initialize", initParams⟩

/-- One HTTP POST performed by the client, tagged with the value of
`self.initialized` at the moment the POST statement executes. -/
structure Post where
  url : String
  payload : Request
  sentInitialized : Bool

/-- The classification the read loop applies to one stream line
(lines 59-63): an `event:` line yields its stripped label, a `data:` line
yields its stripped payload, anything else is ignored. -/
inductive LineItem where
  | event (label : String)
  | dat (payload : String)
  | other
  deriving DecidableEq

/-- Line classification of the read loop (lines 59-63). -/
def classifyLine (line : String) : LineItem :=
  if pyStartsWith line "event: " then .event (pyStrip (pySlice line 7))
  else if pyStartsWith line "data: " then .dat (pyStrip (pySlice line 6))
  else .other

/-- The mutable state of one `send_request` loop: the object fields
`message_id` and `initialized`, and the loop locals `endpoint_url` and
`event_type` (lines 14-16 and 55-56). -/
structure LoopState where
  messageId : Nat
  initialized : Bool
  endpointUrl : Option String
  eventType : Option String

/-- Outcome of processing one stream line: continue the loop, return a
value (line 139), or raise out to the blanket handler (lines 146-150). -/
inductive StepOut where
  | next (st : LoopState) (posts : List Post) (endpoints : List String)
  | ret (st : LoopState) (posts : List Post) (endpoints : List String) (v : Json)
  | abort (st : LoopState) (posts : List Post) (endpoints : List String)

/-- The state carried by a step outcome. -/
def StepOut.state : StepOut → LoopState
  | .next st _ _ => st
  | .ret st _ _ _ => st
  | .abort st _ _ => st

/-- Lines 137-139: `if "result" in parsed or "error" in parsed: return parsed`.
`rIn` is the already-computed value of `"result" in parsed`; Python's `or`
evaluates `"error" in parsed` (which may raise a `TypeError`) only when
`rIn` is false. -/
def checkReturn (parsed : Json) (st : LoopState) (rIn : Bool) : StepOut :=
  if rIn then .ret st [] [] parsed
  else
    match pyIn "error" parsed with
    | .error _ => .abort st [] []
    | .ok true => .ret st [] [] parsed
    | .ok false => .next st [] []

/-- Lines 118-139: handling of a successfully decoded non-endpoint payload.
While not initialized, the client sniffs for an initialize acknowledgment:
`"result" in parsed`, then `parsed.get("result", {})`, then
`"capabilities" in result` (each step may raise a `TypeError` or
`AttributeError` on a non-dict shape, aborting the session).  On a hit it
sets `initialized` and POSTs the caller's request to `endpoint_url`
(a POST to a still-unset `None` endpoint raises, i.e. aborts). -/
def handleParsed (req : Request) (st : LoopState) (parsed : Json) : StepOut :=
  if st.initialized then
    match pyIn "result" parsed with
    | .error _ => .abort st [] []
    | .ok b => checkReturn parsed st b
  else
    match pyIn "result" parsed with
    | .error _ => .abort st [] []
    | .ok false => checkReturn parsed st false
    | .ok true =>
      match pyGet parsed "result" (.obj []) with
      | .error _ => .abort st [] []
      | .ok result =>
        match pyIn "capabilities" result with
        | .error _ => .abort st [] []
        | .ok false => checkReturn parsed st true
        | .ok true =>
          let st' := { st with initialized := true }
          match st'.endpointUrl with
          | none => .abort st' [] []
          | some u => .next st' [⟨u, req, st'.initialized⟩] []

/-- Lines 66-111: a `data:` line while the pending event label is
`endpoint`.  The endpoint URL is computed as `base_url + data` (line 67).
If the session is not initialized and the caller's method is not
`initialize`, the implicit handshake request is POSTed (lines 71-97);
otherwise the caller's request is POSTed (lines 99-111).  Both branches
reset the pending event label. -/
def handleEndpointData (base method : String) (req : Request)
    (st : LoopState) (payload : String) : StepOut :=
  let url := base ++ payload
  let st' := { st with endpointUrl := some url }
  if st'.initialized = false ∧ method ≠ "initialize" then
    let newId := st'.messageId + 1
    .next { st' with messageId := newId, eventType := none }
      [⟨url, initRequest newId, st'.initialized⟩] [url]
  else
    .next { st' with eventType := none } [⟨url, req, st'.initialized⟩] [url]

/-- One iteration of the read loop (lines 58-142) on one stream line. -/
def clientStep (dec : String → Option Json) (base method : String)
    (req : Request) (st : LoopState) (line : String) : StepOut :=
  match classifyLine line with
  | .event label => .next { st with eventType := some label } [] []
  | .other => .next st [] []
  | .dat payload =>
    if st.eventType = some "endpoint" then
      handleEndpointData base method req st payload
    else if payload = "" then .next st [] []
    else
      match dec payload with
      | none => .next st [] []
      | some parsed => handleParsed req st parsed

/-- The aggregate outcome of running the read loop over a list of stream
lines: final state, the POST trace, the computed endpoint URLs, the
returned value (if any), and whether the loop raised out to the blanket
handler. -/
structure RunResult where
  state : LoopState
  posts : List Post
  endpoints : List String
  ret : Option Json
  aborted : Bool

/-- The read loop (lines 58-142) over a whole stream.  When the lines are
exhausted without a return, `send_request` falls through to `return None`
(line 144). -/
def runLines (dec : String → Option Json) (base method : String)
    (req : Request) : LoopState → List String → RunResult
  | st, [] => ⟨st, [], [], none, false⟩
  | st, l :: ls =>
    match clientStep dec base method req st l with
    | .next st' ps es =>
      let r := runLines dec base method req st' ls
      ⟨r.state, ps ++ r.posts, es ++ r.endpoints, r.ret, r.aborted⟩
    | .ret st' ps es v => ⟨st', ps, es, some v, false⟩
    | .abort st' ps es => ⟨st', ps, es, none, true⟩

/-- How the GET connection attempt went: the connect itself may raise
(connection refused / timeout), or the stream opens with a status code and
delivers a list of lines; `readError` records whether, after those lines,
the stream dies with a transport error instead of a clean end. -/
inductive Conn where
  | connectError
  | opened (status : Nat) (lines : List String) (readError : Bool)

/-- The observable outcome of one `send_request` call: the updated object
fields (`message_id`, `initialized`), the value returned to the caller, the
POST trace, the computed endpoint URLs, and whether an exception reached
the blanket handler. -/
structure SendResult where
  messageId : Nat
  initialized : Bool
  ret : Option Json
  posts : List Post
  endpoints : List String
  aborted : Bool

/-- `MCPSSEClient.send_request` (lines 23-150).  The request payload is
built (consuming a message id) before the connection attempt; a connect
failure is swallowed by the blanket handler and returns `None`; a non-200
status returns `None` (lines 48-50); otherwise the read loop runs.  A
mid-stream transport failure (`readError`) raises only once the loop asks
for the next line, so it converts the clean `return None` of line 144 into
the blanket handler's `return None` of line 150 — the caller-visible
result is `none` either way, which the model reflects by not consulting
the flag. -/
def sendRequest (dec : String → Option Json) (base method : String)
    (params : Json) (messageId : Nat) (initialized : Bool)
    (conn : Conn) : SendResult :=
  let id1 := messageId + 1
  let req : Request := ⟨id1, method, params⟩
  match conn with
  | .connectError => ⟨id1, initialized, none, [], [], true⟩
  | .opened status lines _ =>
    if status ≠ 200 then ⟨id1, initialized, none, [], [], false⟩
    else
      let r := runLines dec base method req ⟨id1, initialized, none, none⟩ lines
      ⟨r.state.messageId, r.state.initialized, r.ret, r.posts, r.endpoints, r.aborted⟩

/-! ## The weather server dispatcher, `weather/weather_mcp_server.py` -/

/-- An MCP `TextContent` item as returned by the weather tool handler. -/
structure TextContent where
  type : String
  text : String

/-- `call_tool` (lines 205-277): dispatch on the tool name.  The two
registered branches (`get_weather`, lines 210-236, and `get_forecast`,
lines 238-275) perform network I/O and result formatting and are abstracted
as opaque handler parameters receiving the raw arguments; the final
fallthrough (line 277) returns an ordinary text-content list
`[TextContent(type="text", text=f"Error: Unknown tool '⟨name⟩'")]`. -/
def call_tool
    (handleWeather handleForecast : List (String × String) → List TextContent)
    (name : String) (arguments : List (String × String)) : List TextContent :=
  if name = "get_weather" then handleWeather arguments
  else if name = "get_forecast" then handleForecast arguments
  else [⟨"text", "Error: Unknown tool '" ++ name ++ "'"⟩]

/-! ## The stock ledger, `stock-utility/stockUtilityMCP.py`

The CSV files are external storage; a stored portfolio is modelled as its
row list `List (String × Int)` (stock id, quantity) and the stored balance
as a rational.  Python's in-place dict update / delete are modelled by
`dictSet` / `dictDel`; `sid.upper().strip()` by `upperStrip`.  Python
floats are idealised as exact rationals and `round(x, 2)` as `round2`
(Mathlib's `round` of `100 * x`, divided by 100); the `:.2f` message
formatting of floats is passed in as an opaque `fmt` parameter. -/

/-- Python `d[k] = v` on a dict represented as a key-unique row list:
overwrite in place, or append. -/
def dictSet (d : List (String × Int)) (k : String) (v : Int) :
    List (String × Int) :=
  if d.any (fun kv => kv.1 == k) then
    d.map (fun kv => if kv.1 == k then (k, v) else kv)
  else d ++ [(k, v)]

/-- Python `del d[k]`. -/
def dictDel (d : List (String × Int)) (k : String) : List (String × Int) :=
  d.filter (fun kv => kv.1 != k)

/-- `stock_id.upper().strip()` (lines 147 and 165). -/
def upperStrip (s : String) : String := pyStrip (pyUpper s)

/-- `write_portfolio` (lines 42-48): write one row per holding, skipping
any entry whose quantity is not positive (`if qty > 0`, line 47). -/
def write_portfolio (portfolio : List (String × Int)) : List (String × Int) :=
  portfolio.filter (fun kv => decide (0 < kv.2))

/-- The response dict of the portfolio tools; absent keys are `none`. -/
structure TradeResult where
  success : Bool
  message : String
  stock_id : Option String
  quantity : Option Int
  available : Option Int

/-- `buy_stock` (lines 142-157): reject non-positive quantities, otherwise
add to the held amount and persist via `write_portfolio`. -/
def buy_stock (store : List (String × Int)) (stock_id : String)
    (quantity : Int) : TradeResult × List (String × Int) :=
  if quantity ≤ 0 then
    (⟨false, "Quantity must be positive", none, none, none⟩, store)
  else
    let sid := upperStrip stock_id
    let portfolio := store
    let newQty := ((portfolio.lookup sid).getD 0) + quantity
    let portfolio' := dictSet portfolio sid newQty
    (⟨true, "Bought " ++ toString quantity ++ " shares of " ++ sid,
      some sid, some newQty, none⟩,
     write_portfolio portfolio')

/-- `sell_stock` (lines 160-189): reject non-positive quantities, unknown
stocks and oversells without touching the store; otherwise subtract,
delete the entry when it reaches zero (lines 179-180), and persist via
`write_portfolio`. -/
def sell_stock (store : List (String × Int)) (stock_id : String)
    (quantity : Int) : TradeResult × List (String × Int) :=
  if quantity ≤ 0 then
    (⟨false, "Quantity must be positive", none, none, none⟩, store)
  else
    let sid := upperStrip stock_id
    let portfolio := store
    match portfolio.lookup sid with
    | none => (⟨false, "Stock not found", none, none, none⟩, store)
    | some held =>
      if quantity > held then
        (⟨false, "Not enough shares", none, none, some held⟩, store)
      else
        let newQty := held - quantity
        let portfolio' :=
          if newQty = 0 then dictDel portfolio sid
          else dictSet portfolio sid newQty
        (⟨true, "Sold " ++ toString quantity ++ " shares of " ++ sid,
          some sid, some ((portfolio'.lookup sid).getD 0), none⟩,
         write_portfolio portfolio')

/-- Python `round(x, 2)` on the idealised rational balance. -/
def round2 (x : ℚ) : ℚ := (round (100 * x) : ℤ) / 100

/-- `write_balance` (lines 72-76): the stored text is
`f"{round(new_balance, 2):.2f}"`, i.e. the stored value is
`round2 new_balance`. -/
def write_balance (new_balance : ℚ) : ℚ := round2 new_balance

/-- The response dict of the money tools; absent keys are `none`. -/
structure MoneyResult where
  success : Bool
  message : String
  balance : Option ℚ
  current_balance : Option ℚ

/-- `debit_money` (lines 82-106) acting on the stored balance: reject
non-positive amounts before reading the balance, reject amounts above the
balance, otherwise store `round2 (balance - amount)` via `write_balance`.
`fmt` models the `:.2f` float formatting in the message text. -/
def debit_money (fmt : ℚ → String) (stored : ℚ) (amount : ℚ)
    (reason : String) : MoneyResult × ℚ :=
  if amount ≤ 0 then
    (⟨false, "Amount must be positive", none, none⟩, stored)
  else
    let balance := stored
    if amount > balance then
      (⟨false, "Insufficient balance", none, some (round2 balance)⟩, stored)
    else
      let new_balance := round2 (balance - amount)
      (⟨true, "Debited ₹" ++ fmt amount ++ ". " ++ reason,
        some new_balance, none⟩,
       write_balance new_balance)

/-! ## The RAG search tool, `RAG/mcp_chroma_server.py` -/

/-- Python `min` of a list of floats (idealised as rationals); the empty
case never arises in `document_search` (the caller guards on a non-empty
result list). -/
def pyMin (l : List ℚ) : ℚ :=
  match l with
  | [] => 0
  | x :: xs => xs.foldl min x

/-- The response dict of `document_search`. -/
structure SearchOut where
  max_score : ℚ
  chunks : List String

/-- `document_search` (lines 29-57).  The Chroma vector store is the
external collaborator `search query k`, returning `(page_content, score)`
pairs; the second component of the output counts how many vector-store
queries were issued.  Empty or whitespace-only queries short-circuit to
`max_score = 1.0, chunks = []` without querying the store; an empty result
set gives the same payload after one query; otherwise the chunks are the
page contents in order and `max_score` is `min(scores)` (`TOP_K = 3`). -/
def document_search (search : String → Nat → List (String × ℚ))
    (query : String) : SearchOut × Nat :=
  if query = "" ∨ pyStrip query = "" then (⟨1, []⟩, 0)
  else
    let results := search query 3
    if results = [] then (⟨1, []⟩, 1)
    else (⟨pyMin (results.map Prod.snd), results.map Prod.fst⟩, 1)

/-! ## Derived notions used in the claim statements -/

/-- A POST whose payload is a caller-issued request rather than the
implicit handshake: its method is not `initialize`. -/
def isCallerPost (p : Post) : Bool := p.payload.method != "initialize"

/-- Number of caller-issued request POSTs in a trace. -/
def callerCount (ps : List Post) : Nat := (ps.filter isCallerPost).length

/-- Whether a raw stream line is an `endpoint` event line. -/
def isEndpointEvent (l : String) : Bool :=
  match classifyLine l with
  | .event label => label == "endpoint"
  | _ => false

/-- The initialize-acknowledgment sniff of `send_request` (lines 119-121),
as the client actually computes it: `"result" in parsed` holds without
raising, `parsed.get("result", {})` resolves, and `"capabilities" in
result` holds without raising — Python's `in`, i.e. key membership for a
dict result, element equality for a list result, substring containment for
a string result. -/
def capSniff (parsed : Json) : Bool :=
  match pyIn "result" parsed with
  | .ok true =>
    match pyGet parsed "result" (.obj []) with
    | .ok result =>
      match pyIn "capabilities" result with
      | .ok b => b
      | .error _ => false
    | .error _ => false
  | _ => false

/-- "The `result` field contains a `capabilities` key" read literally:
the value is a dict with a `capabilities` key. -/
def hasCapKey : Json → Bool
  | .obj fields => fields.any (fun f => f.1 == "capabilities")
  | _ => false

/-! ## Concrete data for witnesses and counterexamples

`demoDec` stands in for the external `json.loads`: it decodes three fixed
payload tokens and rejects everything else. -/

/-- A well-formed initialize acknowledgment: `result` carries a
`capabilities` key. -/
def capAckJson : Json :=
  .obj [("jsonrpc", .str "2.0"), ("id", .num 2),
        ("result", .obj [("capabilities", .obj []),
                         ("serverInfo", .obj [("name", .str "weather-mcp")])])]

/-- A tool response whose `id` (999) matches no request of the session. -/
def toolRespJson : Json :=
  .obj [("jsonrpc", .str "2.0"), ("id", .num 999),
        ("result", .obj [("tools", .arr [])])]

/-- A response whose `result` is a *string* merely containing the word
`capabilities` — no `capabilities` key anywhere. -/
def strCapJson : Json :=
  .obj [("jsonrpc", .str "2.0"), ("id", .num 7),
        ("result", .str "capabilities granted")]

/-- A demonstration JSON decoder (the external `json.loads`). -/
def demoDec : String → Option Json := fun s =>
  if s = "capack" then some capAckJson
  else if s = "resp999" then some toolRespJson
  else if s = "strcap" then some strCapJson
  else none

/-- A well-behaved stream: one endpoint event, the handshake
acknowledgment, then a tool response. -/
def demoLines : List String :=
  ["event: endpoint", "data: /msg", "data: capack", "data: resp999"]

/-- A stream with two endpoint events: the second one re-triggers the
POST of the caller's request after the handshake completed. -/
def twoEndpointLines : List String :=
  ["event: endpoint", "data: /msg", "data: capack",
   "event: endpoint", "data: /msg"]

/-- A demonstration portfolio store. -/
def demoStore : List (String × Int) := [("AAPL", 25), ("GOOGL", 5)]

/-- A trivial float formatter for witness runs. -/
def fmt0 : ℚ → String := fun _ => ""

/-- A demonstration vector store for witness runs. -/
def demoSearch : String → Nat → List (String × ℚ) := fun q _ =>
  if q = "hello" then [("chunk one", 1/2), ("chunk two", 3/10)] else []

/-- The POST trace of a step outcome. -/
def StepOut.posts : StepOut → List Post
  | .next _ ps _ => ps
  | .ret _ ps _ _ => ps
  | .abort _ ps _ => ps

/-- The endpoint-computation trace of a step outcome. -/
def StepOut.endpoints : StepOut → List String
  | .next _ _ es => es
  | .ret _ _ es _ => es
  | .abort _ _ es => es

/-- The invariant claimed for stored portfolios: every present entry has a
quantity of at least one share. -/
def positiveQuantities (store : List (String × Int)) : Prop :=
  ∀ kv ∈ store, 1 ≤ kv.2

/-! ## Basic lemmas about the read loop -/

lemma runLines_cons_next {dec : String → Option Json} {base method : String}
    {req : Request} {st st' : LoopState} {l : String} {ls : List String}
    {ps : List Post} {es : List String}
    (h : clientStep dec base method req st l = .next st' ps es) :
    runLines dec base method req st (l :: ls)
      = ⟨(runLines dec base method req st' ls).state,
         ps ++ (runLines dec base method req st' ls).posts,
         es ++ (runLines dec base method req st' ls).endpoints,
         (runLines dec base method req st' ls).ret,
         (runLines dec base method req st' ls).aborted⟩ := by
  simp [runLines, h]

lemma runLines_cons_ret {dec : String → Option Json} {base method : String}
    {req : Request} {st st' : LoopState} {l : String} {ls : List String}
    {ps : List Post} {es : List String} {v : Json}
    (h : clientStep dec base method req st l = .ret st' ps es v) :
    runLines dec base method req st (l :: ls) = ⟨st', ps, es, some v, false⟩ := by
  simp [runLines, h]

lemma runLines_cons_abort {dec : String → Option Json} {base method : String}
    {req : Request} {st st' : LoopState} {l : String} {ls : List String}
    {ps : List Post} {es : List String}
    (h : clientStep dec base method req st l = .abort st' ps es) :
    runLines dec base method req st (l :: ls) = ⟨st', ps, es, none, true⟩ := by
  simp [runLines, h]

lemma clientStep_event {dec : String → Option Json} {base method : String}
    {req : Request} {st : LoopState} {l label : String}
    (h : classifyLine l = .event label) :
    clientStep dec base method req st l
      = .next { st with eventType := some label } [] [] := by
  simp [clientStep, h]

lemma clientStep_other {dec : String → Option Json} {base method : String}
    {req : Request} {st : LoopState} {l : String}
    (h : classifyLine l = .other) :
    clientStep dec base method req st l = .next st [] [] := by
  simp [clientStep, h]

lemma clientStep_dat_endpoint {dec : String → Option Json} {base method : String}
    {req : Request} {st : LoopState} {l payload : String}
    (h : classifyLine l = .dat payload) (hev : st.eventType = some "endpoint") :
    clientStep dec base method req st l
      = handleEndpointData base method req st payload := by
  simp [clientStep, h, hev]

lemma clientStep_dat_skip {dec : String → Option Json} {base method : String}
    {req : Request} {st : LoopState} {l payload : String}
    (h : classifyLine l = .dat payload) (hev : st.eventType ≠ some "endpoint")
    (hskip : payload = "" ∨ dec payload = none) :
    clientStep dec base method req st l = .next st [] [] := by
  rcases hskip with hp | hd
  · simp [clientStep, h, hev, hp]
  · by_cases hp : payload = ""
    · simp [clientStep, h, hev, hp]
    · simp [clientStep, h, hev, hp, hd]

lemma clientStep_dat_parsed {dec : String → Option Json} {base method : String}
    {req : Request} {st : LoopState} {l payload : String} {parsed : Json}
    (h : classifyLine l = .dat payload) (hev : st.eventType ≠ some "endpoint")
    (hp : payload ≠ "") (hdec : dec payload = some parsed) :
    clientStep dec base method req st l = handleParsed req st parsed := by
  simp [clientStep, h, hev, hp, hdec]

lemma handleEndpointData_shape (base method : String) (req : Request)
    (st : LoopState) (payload : String) :
    (st.initialized = false ∧ method ≠ "initialize" ∧
      handleEndpointData base method req st payload
        = .next { st with endpointUrl := some (base ++ payload),
                          messageId := st.messageId + 1, eventType := none }
            [⟨base ++ payload, initRequest (st.messageId + 1), false⟩]
            [base ++ payload]) ∨
    (¬(st.initialized = false ∧ method ≠ "initialize") ∧
      handleEndpointData base method req st payload
        = .next { st with endpointUrl := some (base ++ payload),
                          eventType := none }
            [⟨base ++ payload, req, st.initialized⟩] [base ++ payload]) := by
  by_cases hc : st.initialized = false ∧ method ≠ "initialize"
  · left
    refine ⟨hc.1, hc.2, ?_⟩
    simp [handleEndpointData, hc, hc.1]
  · right
    refine ⟨hc, ?_⟩
    simp [handleEndpointData, hc]

lemma checkReturn_shape (parsed : Json) (st : LoopState) (rIn : Bool) :
    checkReturn parsed st rIn = .abort st [] [] ∨
    checkReturn parsed st rIn = .next st [] [] ∨
    checkReturn parsed st rIn = .ret st [] [] parsed := by
  unfold checkReturn
  by_cases hr : rIn = true
  · simp [hr]
  · simp only [hr, if_false, Bool.not_eq_true] at *
    cases he : pyIn "error" parsed with
    | error e => simp [he]
    | ok b => cases b <;> simp [he, hr]

lemma handleParsed_ready (req : Request) (st : LoopState) (parsed : Json)
    (h : st.initialized = true) :
    handleParsed req st parsed = .abort st [] [] ∨
    handleParsed req st parsed = .next st [] [] ∨
    handleParsed req st parsed = .ret st [] [] parsed := by
  unfold handleParsed
  rw [if_pos (by simp [h])]
  cases hr : pyIn "result" parsed with
  | error e => simp
  | ok b => exact checkReturn_shape parsed st b

lemma handleParsed_not_ready (req : Request) (st : LoopState) (parsed : Json)
    (h : st.initialized = false) :
    (capSniff parsed = false ∧
      (handleParsed req st parsed = .abort st [] [] ∨
       handleParsed req st parsed = .next st [] [] ∨
       handleParsed req st parsed = .ret st [] [] parsed)) ∨
    (capSniff parsed = true ∧ st.endpointUrl = none ∧
      handleParsed req st parsed = .abort { st with initialized := true } [] []) ∨
    (capSniff parsed = true ∧ ∃ u, st.endpointUrl = some u ∧
      handleParsed req st parsed
        = .next { st with initialized := true } [⟨u, req, true⟩] []) := by
  cases hr : pyIn "result" parsed with
  | error e =>
    left
    exact ⟨by simp [capSniff, hr], Or.inl (by simp [handleParsed, h, hr])⟩
  | ok b =>
    cases b with
    | false =>
      left
      refine ⟨by simp [capSniff, hr], ?_⟩
      have hstep : handleParsed req st parsed = checkReturn parsed st false := by
        simp [handleParsed, h, hr, checkReturn]
      rw [hstep]
      exact checkReturn_shape parsed st false
    | true =>
      cases hg : pyGet parsed "result" (.obj []) with
      | error e =>
        left
        exact ⟨by simp [capSniff, hr, hg], Or.inl (by simp [handleParsed, h, hr, hg])⟩
      | ok result =>
        cases hc : pyIn "capabilities" result with
        | error e =>
          left
          exact ⟨by simp [capSniff, hr, hg, hc],
                 Or.inl (by simp [handleParsed, h, hr, hg, hc])⟩
        | ok bc =>
          cases bc with
          | false =>
            left
            refine ⟨by simp [capSniff, hr, hg, hc], ?_⟩
            have hstep : handleParsed req st parsed = checkReturn parsed st true := by
              simp [handleParsed, h, hr, hg, hc]
            rw [hstep]
            exact checkReturn_shape parsed st true
          | true =>
            cases hu : st.endpointUrl with
            | none =>
              right; left
              exact ⟨by simp [capSniff, hr, hg, hc], rfl,
                     by simp [handleParsed, h, hr, hg, hc, hu]⟩
            | some u =>
              right; right
              exact ⟨by simp [capSniff, hr, hg, hc], u, rfl,
                     by simp [handleParsed, h, hr, hg, hc, hu]⟩

lemma step_ready_shape (dec : String → Option Json) (base method : String)
    (req : Request) (st : LoopState) (l : String)
    (h1 : st.initialized = true) (h2 : st.eventType ≠ some "endpoint")
    (h3 : isEndpointEvent l = false) :
    (clientStep dec base method req st l).posts = [] ∧
    (clientStep dec base method req st l).endpoints = [] ∧
    (clientStep dec base method req st l).state.initialized = true ∧
    (clientStep dec base method req st l).state.eventType ≠ some "endpoint" := by
  cases hcl : classifyLine l with
  | event label =>
    have hlb : label ≠ "endpoint" := by
      intro he
      rw [isEndpointEvent, hcl, he] at h3
      simp at h3
    rw [clientStep_event hcl]
    refine ⟨rfl, rfl, h1, ?_⟩
    simp [StepOut.state, hlb]
  | other =>
    rw [clientStep_other hcl]
    exact ⟨rfl, rfl, h1, h2⟩
  | dat payload =>
    by_cases hp : payload = ""
    · rw [clientStep_dat_skip hcl h2 (Or.inl hp)]
      exact ⟨rfl, rfl, h1, h2⟩
    · cases hdec : dec payload with
      | none =>
        rw [clientStep_dat_skip hcl h2 (Or.inr hdec)]
        exact ⟨rfl, rfl, h1, h2⟩
      | some parsed =>
        rw [clientStep_dat_parsed hcl h2 hp hdec]
        rcases handleParsed_ready req st parsed h1 with hh | hh | hh <;>
          rw [hh] <;> exact ⟨rfl, rfl, h1, h2⟩

lemma ready_run_no_posts (dec : String → Option Json) (base method : String)
    (req : Request) :
    ∀ (ls : List String) (st : LoopState),
      st.initialized = true → st.eventType ≠ some "endpoint" →
      (∀ l ∈ ls, isEndpointEvent l = false) →
      (runLines dec base method req st ls).posts = [] := by
  intro ls
  induction ls with
  | nil => intro st _ _ _; rfl
  | cons l ls ih =>
    intro st h1 h2 hls
    have hl : isEndpointEvent l = false := hls l (by simp)
    have hrest : ∀ l' ∈ ls, isEndpointEvent l' = false :=
      fun l' h => hls l' (by simp [h])
    have hshape := step_ready_shape dec base method req st l h1 h2 hl
    cases hstep : clientStep dec base method req st l with
    | next st' ps es =>
      rw [hstep] at hshape
      rw [runLines_cons_next hstep]
      have := ih st' hshape.2.2.1 hshape.2.2.2 hrest
      simp [StepOut.posts] at hshape
      simp [this, hshape.1]
    | ret st' ps es v =>
      rw [hstep] at hshape
      rw [runLines_cons_ret hstep]
      simpa [StepOut.posts] using hshape.1
    | abort st' ps es =>
      rw [hstep] at hshape
      rw [runLines_cons_abort hstep]
      simpa [StepOut.posts] using hshape.1

lemma no_endpoint_computation (dec : String → Option Json)
    (base method : String) (req : Request) :
    ∀ (ls : List String) (st : LoopState),
      st.eventType ≠ some "endpoint" →
      (∀ l ∈ ls, isEndpointEvent l = false) →
      (runLines dec base method req st ls).endpoints = [] := by
  intro ls
  induction ls with
  | nil => intro st _ _; rfl
  | cons l ls ih =>
    intro st h2 hls
    have hl : isEndpointEvent l = false := hls l (by simp)
    have hrest : ∀ l' ∈ ls, isEndpointEvent l' = false :=
      fun l' h => hls l' (by simp [h])
    cases hcl : classifyLine l with
    | event label =>
      have hlb : label ≠ "endpoint" := by
        intro he
        rw [isEndpointEvent, hcl, he] at hl
        simp at hl
      rw [runLines_cons_next (clientStep_event hcl)]
      have := ih { st with eventType := some label } (by simp [hlb]) hrest
      simp [this]
    | other =>
      rw [runLines_cons_next (clientStep_other hcl)]
      simp [ih st h2 hrest]
    | dat payload =>
      by_cases hp : payload = ""
      · rw [runLines_cons_next (clientStep_dat_skip hcl h2 (Or.inl hp))]
        simp [ih st h2 hrest]
      · cases hdec : dec payload with
        | none =>
          rw [runLines_cons_next (clientStep_dat_skip hcl h2 (Or.inr hdec))]
          simp [ih st h2 hrest]
        | some parsed =>
          by_cases hinit : st.initialized = true
          · rcases handleParsed_ready req st parsed hinit with hh | hh | hh
            · rw [runLines_cons_abort (by rw [clientStep_dat_parsed hcl h2 hp hdec, hh])]
            · rw [runLines_cons_next (by rw [clientStep_dat_parsed hcl h2 hp hdec, hh])]
              simp [ih st h2 hrest]
            · rw [runLines_cons_ret (by rw [clientStep_dat_parsed hcl h2 hp hdec, hh])]
          · have h0 : st.initialized = false := by simpa using hinit
            rcases handleParsed_not_ready req st parsed h0 with
              ⟨_, hh | hh | hh⟩ | ⟨_, _, hh⟩ | ⟨_, u, hu, hh⟩
            · rw [runLines_cons_abort (by rw [clientStep_dat_parsed hcl h2 hp hdec, hh])]
            · rw [runLines_cons_next (by rw [clientStep_dat_parsed hcl h2 hp hdec, hh])]
              simp [ih st h2 hrest]
            · rw [runLines_cons_ret (by rw [clientStep_dat_parsed hcl h2 hp hdec, hh])]
            · rw [runLines_cons_abort (by rw [clientStep_dat_parsed hcl h2 hp hdec, hh])]
            · rw [runLines_cons_next (by rw [clientStep_dat_parsed hcl h2 hp hdec, hh])]
              simp [ih { st with initialized := true } (by simpa using h2) hrest]

lemma isCallerPost_initRequest (u : String) (n : Nat) (b : Bool) :
    isCallerPost ⟨u, initRequest n, b⟩ = false := by
  simp [isCallerPost, initRequest]

lemma isCallerPost_req {req : Request} {method : String} (u : String) (b : Bool)
    (hm : method ≠ "initialize") (hreq : req.method = method) :
    isCallerPost ⟨u, req, b⟩ = true := by
  simp [isCallerPost, hreq]
  exact hm

lemma caller_posts_tagged (dec : String → Option Json) (base method : String)
    (req : Request) (hm : method ≠ "initialize") :
    ∀ (ls : List String) (st : LoopState),
      ∀ p ∈ (runLines dec base method req st ls).posts,
        isCallerPost p = true → p.sentInitialized = true ∧ p.payload = req := by
  intro ls
  induction ls with
  | nil => intro st p hp; simp [runLines] at hp
  | cons l ls ih =>
    intro st p hp hcaller
    cases hcl : classifyLine l with
    | event label =>
      rw [runLines_cons_next (clientStep_event hcl)] at hp
      simp only [List.nil_append] at hp
      exact ih _ p hp hcaller
    | other =>
      rw [runLines_cons_next (clientStep_other hcl)] at hp
      simp only [List.nil_append] at hp
      exact ih _ p hp hcaller
    | dat payload =>
      by_cases hev : st.eventType = some "endpoint"
      · rcases handleEndpointData_shape base method req st payload with
          ⟨_, _, hh⟩ | ⟨hc, hh⟩
        · rw [runLines_cons_next (by rw [clientStep_dat_endpoint hcl hev, hh])] at hp
          simp only [List.cons_append, List.nil_append, List.mem_cons] at hp
          rcases hp with hp | hp
          · rw [hp] at hcaller
            rw [isCallerPost_initRequest] at hcaller
            cases hcaller
          · exact ih _ p hp hcaller
        · have hst : st.initialized = true := by
            by_contra hfalse
            exact hc ⟨by simpa using hfalse, hm⟩
          rw [runLines_cons_next (by rw [clientStep_dat_endpoint hcl hev, hh])] at hp
          simp only [List.cons_append, List.nil_append, List.mem_cons] at hp
          rcases hp with hp | hp
          · rw [hp]
            exact ⟨hst, rfl⟩
          · exact ih _ p hp hcaller
      · by_cases hp0 : payload = ""
        · rw [runLines_cons_next (clientStep_dat_skip hcl hev (Or.inl hp0))] at hp
          simp only [List.nil_append] at hp
          exact ih _ p hp hcaller
        · cases hdec : dec payload with
          | none =>
            rw [runLines_cons_next (clientStep_dat_skip hcl hev (Or.inr hdec))] at hp
            simp only [List.nil_append] at hp
            exact ih _ p hp hcaller
          | some parsed =>
            by_cases hinit : st.initialized = true
            · rcases handleParsed_ready req st parsed hinit with hh | hh | hh
              · rw [runLines_cons_abort
                  (by rw [clientStep_dat_parsed hcl hev hp0 hdec, hh])] at hp
                simp at hp
              · rw [runLines_cons_next
                  (by rw [clientStep_dat_parsed hcl hev hp0 hdec, hh])] at hp
                simp only [List.nil_append] at hp
                exact ih _ p hp hcaller
              · rw [runLines_cons_ret
                  (by rw [clientStep_dat_parsed hcl hev hp0 hdec, hh])] at hp
                simp at hp
            · have h0 : st.initialized = false := by simpa using hinit
              rcases handleParsed_not_ready req st parsed h0 with
                ⟨_, hh | hh | hh⟩ | ⟨_, _, hh⟩ | ⟨_, u, hu, hh⟩
              · rw [runLines_cons_abort
                  (by rw [clientStep_dat_parsed hcl hev hp0 hdec, hh])] at hp
                simp at hp
              · rw [runLines_cons_next
                  (by rw [clientStep_dat_parsed hcl hev hp0 hdec, hh])] at hp
                simp only [List.nil_append] at hp
                exact ih _ p hp hcaller
              · rw [runLines_cons_ret
                  (by rw [clientStep_dat_parsed hcl hev hp0 hdec, hh])] at hp
                simp at hp
              · rw [runLines_cons_abort
                  (by rw [clientStep_dat_parsed hcl hev hp0 hdec, hh])] at hp
                simp at hp
              · rw [runLines_cons_next
                  (by rw [clientStep_dat_parsed hcl hev hp0 hdec, hh])] at hp
                simp only [List.cons_append, List.nil_append, List.mem_cons] at hp
                rcases hp with hp | hp
                · rw [hp]
                  exact ⟨rfl, rfl⟩
                · exact ih _ p hp hcaller

lemma callerCount_nil : callerCount [] = 0 := rfl

lemma callerCount_cons_false {p : Post} {ps : List Post}
    (h : isCallerPost p = false) : callerCount (p :: ps) = callerCount ps := by
  simp [callerCount, List.filter_cons, h]

lemma callerCount_cons_true {p : Post} {ps : List Post}
    (h : isCallerPost p = true) : callerCount (p :: ps) = callerCount ps + 1 := by
  simp [callerCount, List.filter_cons, h]

lemma caller_delivered_once (dec : String → Option Json) (base method : String)
    (req : Request) (hm : method ≠ "initialize") (hreq : req.method = method) :
    ∀ (ls : List String) (st : LoopState),
      st.initialized = false →
      ls.countP isEndpointEvent
        + (if st.eventType = some "endpoint" then 1 else 0)
        + (if st.endpointUrl.isSome then 1 else 0) ≤ 1 →
      (runLines dec base method req st ls).aborted = false →
      (runLines dec base method req st ls).state.initialized = true →
      callerCount (runLines dec base method req st ls).posts = 1 := by
  intro ls
  induction ls with
  | nil =>
    intro st h0 _ _ hini
    simp [runLines] at hini
    rw [h0] at hini
    cases hini
  | cons l ls ih =>
    intro st h0 hbud hab hini
    rw [List.countP_cons] at hbud
    cases hcl : classifyLine l with
    | event label =>
      rw [runLines_cons_next (clientStep_event hcl)] at hab hini ⊢
      simp only [List.nil_append] at hab hini ⊢
      by_cases hlb : label = "endpoint"
      · have hepl : isEndpointEvent l = true := by
          simp [isEndpointEvent, hcl, hlb]
        rw [hepl, if_pos rfl] at hbud
        subst hlb
        refine ih { st with eventType := some "endpoint" } h0 ?_ hab hini
        show List.countP isEndpointEvent ls
          + (if (some "endpoint" : Option String) = some "endpoint" then 1 else 0)
          + (if st.endpointUrl.isSome then 1 else 0) ≤ 1
        rw [if_pos rfl]
        split_ifs at hbud ⊢ <;> omega
      · have hepl : isEndpointEvent l = false := by
          simp [isEndpointEvent, hcl, hlb]
        rw [hepl, if_neg (by decide : ¬(false = true))] at hbud
        refine ih { st with eventType := some label } h0 ?_ hab hini
        show List.countP isEndpointEvent ls
          + (if (some label : Option String) = some "endpoint" then 1 else 0)
          + (if st.endpointUrl.isSome then 1 else 0) ≤ 1
        rw [if_neg (by simpa using hlb)]
        split_ifs at hbud ⊢ <;> omega
    | other =>
      have hepl : isEndpointEvent l = false := by simp [isEndpointEvent, hcl]
      rw [hepl, if_neg (by decide : ¬(false = true))] at hbud
      rw [runLines_cons_next (clientStep_other hcl)] at hab hini ⊢
      simp only [List.nil_append] at hab hini ⊢
      refine ih st h0 ?_ hab hini
      split_ifs at hbud ⊢ <;> omega
    | dat payload =>
      have hepl : isEndpointEvent l = false := by simp [isEndpointEvent, hcl]
      rw [hepl, if_neg (by decide : ¬(false = true))] at hbud
      by_cases hev : st.eventType = some "endpoint"
      · rcases handleEndpointData_shape base method req st payload with
          ⟨_, _, hh⟩ | ⟨hc, hh⟩
        · rw [runLines_cons_next (by rw [clientStep_dat_endpoint hcl hev, hh])]
            at hab hini ⊢
          rw [List.singleton_append,
              callerCount_cons_false (isCallerPost_initRequest _ _ _)]
          rw [if_pos hev] at hbud
          have hcnt0 : List.countP isEndpointEvent ls = 0 := by
            split_ifs at hbud <;> omega
          refine ih { st with endpointUrl := some (base ++ payload),
                              messageId := st.messageId + 1,
                              eventType := none } h0 ?_ hab hini
          show List.countP isEndpointEvent ls
            + (if (none : Option String) = some "endpoint" then 1 else 0)
            + (if (some (base ++ payload) : Option String).isSome then 1 else 0) ≤ 1
          rw [hcnt0, if_neg (by simp), if_pos (by simp)]
        · exact absurd ⟨h0, hm⟩ hc
      · rw [if_neg hev] at hbud
        by_cases hp0 : payload = ""
        · rw [runLines_cons_next (clientStep_dat_skip hcl hev (Or.inl hp0))]
            at hab hini ⊢
          simp only [List.nil_append] at hab hini ⊢
          refine ih st h0 ?_ hab hini
          rw [if_neg hev]
          split_ifs at hbud ⊢ <;> omega
        · cases hdec : dec payload with
          | none =>
            rw [runLines_cons_next (clientStep_dat_skip hcl hev (Or.inr hdec))]
              at hab hini ⊢
            simp only [List.nil_append] at hab hini ⊢
            refine ih st h0 ?_ hab hini
            rw [if_neg hev]
            split_ifs at hbud ⊢ <;> omega
          | some parsed =>
            rcases handleParsed_not_ready req st parsed h0 with
              ⟨_, hh | hh | hh⟩ | ⟨_, _, hh⟩ | ⟨_, u, hu, hh⟩
            · rw [runLines_cons_abort
                (by rw [clientStep_dat_parsed hcl hev hp0 hdec, hh])] at hab
              cases hab
            · rw [runLines_cons_next
                (by rw [clientStep_dat_parsed hcl hev hp0 hdec, hh])]
                at hab hini ⊢
              simp only [List.nil_append] at hab hini ⊢
              refine ih st h0 ?_ hab hini
              rw [if_neg hev]
              split_ifs at hbud ⊢ <;> omega
            · rw [runLines_cons_ret
                (by rw [clientStep_dat_parsed hcl hev hp0 hdec, hh])] at hini
              simp only [] at hini
              rw [h0] at hini
              cases hini
            · rw [runLines_cons_abort
                (by rw [clientStep_dat_parsed hcl hev hp0 hdec, hh])] at hab
              cases hab
            · rw [runLines_cons_next
                (by rw [clientStep_dat_parsed hcl hev hp0 hdec, hh])] at hab hini ⊢
              rw [hu, if_pos (by simp)] at hbud
              have hcnt0 : List.countP isEndpointEvent ls = 0 := by omega
              have hrec : (runLines dec base method req
                  { st with initialized := true } ls).posts = [] := by
                apply ready_run_no_posts dec base method req ls _ rfl
                · simpa using hev
                · intro l' hl'
                  have := List.countP_eq_zero.mp hcnt0 l' hl'
                  simpa using this
              rw [List.singleton_append,
                  callerCount_cons_true (isCallerPost_req u true hm hreq), hrec,
                  callerCount_nil]

/-- C1, counterexample: a fresh session (`initialized = false`,
method `tools/list`) over a stream carrying *two* endpoint events completes
the handshake without any failure, yet the caller's request is POSTed to
the wire twice, refuting "POSTed exactly once". -/
theorem c1_counterexample :
    (sendRequest demoDec "http://h" "tools/list" (.obj []) 0 false
        (.opened 200 twoEndpointLines false)).aborted = false ∧
    (sendRequest demoDec "http://h" "tools/list" (.obj []) 0 false
        (.opened 200 twoEndpointLines false)).initialized = true ∧
    callerCount (sendRequest demoDec "http://h" "tools/list" (.obj []) 0 false
        (.opened 200 twoEndpointLines false)).posts = 2 := by
  refine ⟨by decide, by decide, by decide⟩

/-- C1 (amended): for a session of the streaming-HTTP client started while
not initialized with a caller method other than `initialize`: (1) on every
stream, a POST whose payload is the caller's request is only ever made with
`initialized = true` already set, and its payload is exactly the request
built at call entry; (2) when the stream carries at most one endpoint
event and no exception reaches the blanket handler and the handshake
completes (`initialized` ends up true), the caller's request is POSTed
exactly once. -/
theorem c1_request_delivery (dec : String → Option Json) (base method : String)
    (params : Json) (m0 : Nat) (lines : List String) (readErr : Bool)
    (hm : method ≠ "initialize") :
    (∀ p ∈ (sendRequest dec base method params m0 false
        (.opened 200 lines readErr)).posts,
      isCallerPost p = true →
        p.sentInitialized = true ∧ p.payload = ⟨m0 + 1, method, params⟩) ∧
    (lines.countP isEndpointEvent ≤ 1 →
      (sendRequest dec base method params m0 false
          (.opened 200 lines readErr)).aborted = false →
      (sendRequest dec base method params m0 false
          (.opened 200 lines readErr)).initialized = true →
      callerCount (sendRequest dec base method params m0 false
          (.opened 200 lines readErr)).posts = 1) := by
  constructor
  · intro p hp hc
    exact caller_posts_tagged dec base method ⟨m0 + 1, method, params⟩ hm
      lines ⟨m0 + 1, false, none, none⟩ p hp hc
  · intro hcnt hab hini
    refine caller_delivered_once dec base method ⟨m0 + 1, method, params⟩ hm rfl
      lines ⟨m0 + 1, false, none, none⟩ rfl ?_ hab hini
    simpa using hcnt

/-- Witness for C1 (amended) on a well-behaved stream. -/
theorem c1_request_delivery_witness :
    ("tools/list" : String) ≠ "initialize" ∧
    demoLines.countP isEndpointEvent ≤ 1 ∧
    callerCount (sendRequest demoDec "http://h" "tools/list" (.obj []) 0 false
        (.opened 200 demoLines false)).posts = 1 := by
  refine ⟨by decide, by decide, ?_⟩
  exact (c1_request_delivery demoDec "http://h" "tools/list" (.obj []) 0
    demoLines false (by decide)).2 (by decide) (by decide) (by decide)

/-- C2, counterexample: while not initialized, a payload whose `result`
field is the *string* `"capabilities granted"` — which contains no
`capabilities` key — still flips the client to Ready, because line 121
uses Python's `in`, which is a substring test on strings. -/
theorem c2_counterexample :
    (clientStep demoDec "http://h" "tools/list" ⟨1, "tools/list", .obj []⟩
        ⟨1, false, some "u", none⟩ "data: strcap").state.initialized = true ∧
    pyGet strCapJson "result" (.obj []) = .ok (.str "capabilities granted") ∧
    hasCapKey (.str "capabilities granted") = false := by
  refine ⟨by decide, rfl, by decide⟩

/-- C2 (amended): processing one stream line never clears `initialized`,
and a not-yet-initialized client becomes initialized on that line exactly
when the line is a non-endpoint `data:` line with a non-empty payload that
decodes to a value passing the `capSniff` membership test — `"result" in
parsed` and `"capabilities" in parsed.get("result", {})` under Python's
`in` semantics (key membership for dicts, element equality for lists,
substring containment for strings), with no constraint on the payload's
`id`. -/
theorem c2_ready_transition (dec : String → Option Json) (base method : String)
    (req : Request) (st : LoopState) (line : String) :
    (st.initialized = true →
      (clientStep dec base method req st line).state.initialized = true) ∧
    (st.initialized = false →
      ((clientStep dec base method req st line).state.initialized = true ↔
        (st.eventType ≠ some "endpoint" ∧
          ∃ payload parsed, classifyLine line = .dat payload ∧ payload ≠ "" ∧
            dec payload = some parsed ∧ capSniff parsed = true))) := by
  constructor
  · intro h1
    cases hcl : classifyLine line with
    | event label => rw [clientStep_event hcl]; exact h1
    | other => rw [clientStep_other hcl]; exact h1
    | dat payload =>
      by_cases hev : st.eventType = some "endpoint"
      · rcases handleEndpointData_shape base method req st payload with
          ⟨hi, _, hh⟩ | ⟨_, hh⟩
        · rw [h1] at hi; cases hi
        · rw [clientStep_dat_endpoint hcl hev, hh]; exact h1
      · by_cases hp0 : payload = ""
        · rw [clientStep_dat_skip hcl hev (Or.inl hp0)]; exact h1
        · cases hdec : dec payload with
          | none => rw [clientStep_dat_skip hcl hev (Or.inr hdec)]; exact h1
          | some parsed =>
            rw [clientStep_dat_parsed hcl hev hp0 hdec]
            rcases handleParsed_ready req st parsed h1 with hh | hh | hh <;>
              rw [hh] <;> exact h1
  · intro h0
    cases hcl : classifyLine line with
    | event label =>
      rw [clientStep_event hcl]
      constructor
      · intro hflip
        simp [StepOut.state, h0] at hflip
      · rintro ⟨_, payload, parsed, hcl2, _⟩
        cases hcl2
    | other =>
      rw [clientStep_other hcl]
      constructor
      · intro hflip
        simp [StepOut.state, h0] at hflip
      · rintro ⟨_, payload, parsed, hcl2, _⟩
        cases hcl2
    | dat payload =>
      by_cases hev : st.eventType = some "endpoint"
      · rcases handleEndpointData_shape base method req st payload with
          ⟨_, _, hh⟩ | ⟨_, hh⟩ <;>
          rw [clientStep_dat_endpoint hcl hev, hh] <;>
          constructor
        · intro hflip
          simp [StepOut.state, h0] at hflip
        · rintro ⟨hne, _⟩
          exact absurd hev hne
        · intro hflip
          simp [StepOut.state, h0] at hflip
        · rintro ⟨hne, _⟩
          exact absurd hev hne
      · by_cases hp0 : payload = ""
        · rw [clientStep_dat_skip hcl hev (Or.inl hp0)]
          constructor
          · intro hflip
            simp [StepOut.state, h0] at hflip
          · rintro ⟨_, payload', parsed, hcl2, hne, _⟩
            cases hcl2
            exact absurd hp0 hne
        · cases hdec : dec payload with
          | none =>
            rw [clientStep_dat_skip hcl hev (Or.inr hdec)]
            constructor
            · intro hflip
              simp [StepOut.state, h0] at hflip
            · rintro ⟨_, payload', parsed, hcl2, _, hdec2, _⟩
              cases hcl2
              rw [hdec] at hdec2
              cases hdec2
          | some parsed =>
            rw [clientStep_dat_parsed hcl hev hp0 hdec]
            rcases handleParsed_not_ready req st parsed h0 with
              ⟨hcs, hh | hh | hh⟩ | ⟨hcs, _, hh⟩ | ⟨hcs, u, hu, hh⟩ <;> rw [hh] <;>
              constructor
            · intro hflip
              simp [StepOut.state, h0] at hflip
            · rintro ⟨_, payload', parsed', hcl2, _, hdec2, hcs2⟩
              cases hcl2
              rw [hdec] at hdec2
              cases hdec2
              rw [hcs] at hcs2
              cases hcs2
            · intro hflip
              simp [StepOut.state, h0] at hflip
            · rintro ⟨_, payload', parsed', hcl2, _, hdec2, hcs2⟩
              cases hcl2
              rw [hdec] at hdec2
              cases hdec2
              rw [hcs] at hcs2
              cases hcs2
            · intro hflip
              simp [StepOut.state, h0] at hflip
            · rintro ⟨_, payload', parsed', hcl2, _, hdec2, hcs2⟩
              cases hcl2
              rw [hdec] at hdec2
              cases hdec2
              rw [hcs] at hcs2
              cases hcs2
            · intro _
              exact ⟨hev, payload, parsed, rfl, hp0, hdec, hcs⟩
            · intro _
              rfl
            · intro _
              exact ⟨hev, payload, parsed, rfl, hp0, hdec, hcs⟩
            · intro _
              rfl

/-- Witness for C2 (amended): a well-formed acknowledgment flips a
not-initialized client to Ready. -/
theorem c2_ready_transition_witness :
    (⟨1, false, some "u", none⟩ : LoopState).initialized = false ∧
    (clientStep demoDec "http://h" "tools/list" ⟨1, "tools/list", .obj []⟩
        ⟨1, false, some "u", none⟩ "data: capack").state.initialized = true := by
  refine ⟨rfl, ?_⟩
  exact ((c2_ready_transition demoDec "http://h" "tools/list"
      ⟨1, "tools/list", .obj []⟩ ⟨1, false, some "u", none⟩ "data: capack").2
    rfl).mpr ⟨by simp, "capack", capAckJson, by decide, by decide, rfl, by decide⟩

/-- C3: reading an `event: endpoint` line followed by a `data:` line with
payload `p` computes `endpoint_url` as the exact string concatenation
`base ++ p` (line 67); over a stream whose remaining lines contain no
further endpoint event, the computation happens exactly once — the run's
endpoint-computation trace is exactly `[base ++ p]`. -/
theorem c3_endpoint_resolution (dec : String → Option Json)
    (base method : String) (req : Request) (st : LoopState)
    (l1 l2 p : String) (rest : List String)
    (h1 : classifyLine l1 = .event "endpoint")
    (h2 : classifyLine l2 = .dat p)
    (hrest : ∀ l ∈ rest, isEndpointEvent l = false) :
    (runLines dec base method req st (l1 :: l2 :: rest)).endpoints
      = [base ++ p] := by
  rw [runLines_cons_next (clientStep_event h1)]
  have hev : ({ st with eventType := some "endpoint" } : LoopState).eventType
      = some "endpoint" := rfl
  rcases handleEndpointData_shape base method req
      { st with eventType := some "endpoint" } p with ⟨_, _, hh⟩ | ⟨_, hh⟩ <;>
    rw [runLines_cons_next (by rw [clientStep_dat_endpoint h2 hev, hh])] <;>
    rw [no_endpoint_computation dec base method req rest _ (by simp) hrest] <;>
    simp

/-- Witness for C3 on the spec's own example stream. -/
theorem c3_endpoint_resolution_witness :
    classifyLine "event: endpoint" = .event "endpoint" ∧
    classifyLine "data: /session/abc" = .dat "/session/abc" ∧
    (runLines demoDec "http://127.0.0.1:8010" "tools/list"
        ⟨1, "tools/list", .obj []⟩ ⟨1, false, none, none⟩
        ["event: endpoint", "data: /session/abc"]).endpoints
      = ["http://127.0.0.1:8010" ++ "/session/abc"] := by
  refine ⟨by decide, by decide, ?_⟩
  exact c3_endpoint_resolution demoDec "http://127.0.0.1:8010" "tools/list"
    ⟨1, "tools/list", .obj []⟩ ⟨1, false, none, none⟩
    "event: endpoint" "data: /session/abc" "/session/abc" []
    (by decide) (by decide) (by intro l hl; cases hl)

lemma checkReturn_ret_inv {parsed : Json} {st st' : LoopState} {rIn : Bool}
    {ps : List Post} {es : List String} {v : Json}
    (h : checkReturn parsed st rIn = .ret st' ps es v) :
    v = parsed ∧ (rIn = true ∨ pyIn "error" parsed = .ok true) := by
  unfold checkReturn at h
  cases rIn with
  | true =>
    rw [if_pos rfl] at h
    cases h
    exact ⟨rfl, Or.inl rfl⟩
  | false =>
    rw [if_neg (by decide : ¬(false = true))] at h
    split at h
    · cases h
    · cases h
      rename_i he
      exact ⟨rfl, Or.inr he⟩
    · cases h

lemma handleParsed_ret_inv {req : Request} {st st' : LoopState} {parsed : Json}
    {ps : List Post} {es : List String} {v : Json}
    (h : handleParsed req st parsed = .ret st' ps es v) :
    v = parsed ∧ (pyIn "result" parsed = .ok true ∨
                  pyIn "error" parsed = .ok true) := by
  unfold handleParsed at h
  by_cases hinit : st.initialized = true
  · rw [if_pos (by simp [hinit])] at h
    split at h
    · cases h
    · rename_i b hr
      obtain ⟨hv, hb⟩ := checkReturn_ret_inv h
      rcases hb with hb | hb
      · subst hb
        exact ⟨hv, Or.inl hr⟩
      · exact ⟨hv, Or.inr hb⟩
  · rw [if_neg (by simpa using hinit)] at h
    split at h
    · cases h
    · rename_i hr
      obtain ⟨hv, hb⟩ := checkReturn_ret_inv h
      rcases hb with hb | hb
      · cases hb
      · exact ⟨hv, Or.inr hb⟩
    · rename_i hr
      split at h
      · cases h
      · rename_i result hg
        split at h
        · cases h
        · obtain ⟨hv, _⟩ := checkReturn_ret_inv h
          exact ⟨hv, Or.inl hr⟩
        · cases hu : st.endpointUrl <;> simp [hu] at h

lemma clientStep_ret_inv {dec : String → Option Json} {base method : String}
    {req : Request} {st st' : LoopState} {l : String}
    {ps : List Post} {es : List String} {v : Json}
    (h : clientStep dec base method req st l = .ret st' ps es v) :
    ∃ payload, classifyLine l = .dat payload ∧ dec payload = some v ∧
      (pyIn "result" v = .ok true ∨ pyIn "error" v = .ok true) := by
  cases hcl : classifyLine l with
  | event label => rw [clientStep_event hcl] at h; cases h
  | other => rw [clientStep_other hcl] at h; cases h
  | dat payload =>
    by_cases hev : st.eventType = some "endpoint"
    · rcases handleEndpointData_shape base method req st payload with
        ⟨_, _, hh⟩ | ⟨_, hh⟩ <;>
        rw [clientStep_dat_endpoint hcl hev, hh] at h <;> cases h
    · by_cases hp0 : payload = ""
      · rw [clientStep_dat_skip hcl hev (Or.inl hp0)] at h; cases h
      · cases hdec : dec payload with
        | none => rw [clientStep_dat_skip hcl hev (Or.inr hdec)] at h; cases h
        | some parsed =>
          rw [clientStep_dat_parsed hcl hev hp0 hdec] at h
          obtain ⟨hv, hrest⟩ := handleParsed_ret_inv h
          subst hv
          exact ⟨payload, rfl, hdec, hrest⟩

lemma runLines_ret_inv {dec : String → Option Json} {base method : String}
    {req : Request} :
    ∀ (ls : List String) (st : LoopState) (v : Json),
      (runLines dec base method req st ls).ret = some v →
      ∃ l ∈ ls, ∃ payload, classifyLine l = .dat payload ∧
        dec payload = some v ∧
        (pyIn "result" v = .ok true ∨ pyIn "error" v = .ok true) := by
  intro ls
  induction ls with
  | nil => intro st v h; cases h
  | cons l ls ih =>
    intro st v h
    cases hstep : clientStep dec base method req st l with
    | next st' ps es =>
      rw [runLines_cons_next hstep] at h
      obtain ⟨l', hl', rest⟩ := ih st' v h
      exact ⟨l', List.mem_cons_of_mem l hl', rest⟩
    | ret st' ps es v' =>
      rw [runLines_cons_ret hstep] at h
      cases h
      obtain ⟨payload, hp⟩ := clientStep_ret_inv hstep
      exact ⟨l, List.mem_cons_self l ls, payload, hp⟩
    | abort st' ps es =>
      rw [runLines_cons_abort hstep] at h
      cases h

/-- C4, counterexample: on a well-behaved session the POSTed requests have
ids 2 (handshake) and 1 (caller's request), yet `send_request` returns the
stream message whose `id` is 999 — the code returns the first
`result`/`error`-bearing payload without any id correlation. -/
theorem c4_counterexample :
    (sendRequest demoDec "http://h" "tools/list" (.obj []) 0 false
        (.opened 200 demoLines false)).ret = some toolRespJson ∧
    pyGet toolRespJson "id" .null = .ok (.num 999) ∧
    (sendRequest demoDec "http://h" "tools/list" (.obj []) 0 false
        (.opened 200 demoLines false)).posts.map (fun p => p.payload.id)
      = [2, 1] := by
  refine ⟨rfl, rfl, by decide⟩

/-- C4 (amended): when `send_request` returns a value, that value is the
decoded payload of some `data:` line of the stream which passes the
`"result" in parsed or "error" in parsed` membership test — no correlation
with the id of the POSTed request is performed. -/
theorem c4_response_selection (dec : String → Option Json)
    (base method : String) (params : Json) (m0 : Nat) (init : Bool)
    (status : Nat) (lines : List String) (readErr : Bool) (v : Json)
    (h : (sendRequest dec base method params m0 init
        (.opened status lines readErr)).ret = some v) :
    ∃ l ∈ lines, ∃ payload, classifyLine l = .dat payload ∧
      dec payload = some v ∧
      (pyIn "result" v = .ok true ∨ pyIn "error" v = .ok true) := by
  by_cases hs : status = 200
  · subst hs
    exact runLines_ret_inv lines ⟨m0 + 1, init, none, none⟩ v h
  · rw [show sendRequest dec base method params m0 init
        (.opened status lines readErr)
        = ⟨m0 + 1, init, none, [], [], false⟩ by simp [sendRequest, hs]] at h
    cases h

/-- Witness for C4 (amended) on a well-behaved stream. -/
theorem c4_response_selection_witness :
    (sendRequest demoDec "http://h" "tools/list" (.obj []) 0 false
        (.opened 200 demoLines false)).ret = some toolRespJson ∧
    ∃ l ∈ demoLines, ∃ payload, classifyLine l = .dat payload ∧
      demoDec payload = some toolRespJson ∧
      (pyIn "result" toolRespJson = .ok true ∨
       pyIn "error" toolRespJson = .ok true) := by
  refine ⟨rfl, ?_⟩
  exact c4_response_selection demoDec "http://h" "tools/list" (.obj []) 0 false
    200 demoLines false toolRespJson rfl

/-- C6: a `data:` line whose payload is not valid JSON (the decoder
rejects it) is skipped silently while no endpoint event is pending — the
run over the stream with that line equals the run over the stream without
it: no state change, no POST, no abort, and parsing continues with the
subsequent lines. -/
theorem c6_bad_payload_skipped (dec : String → Option Json)
    (base method : String) (req : Request) (st : LoopState)
    (l : String) (rest : List String) (payload : String)
    (h1 : classifyLine l = .dat payload) (h2 : dec payload = none)
    (h3 : st.eventType ≠ some "endpoint") :
    runLines dec base method req st (l :: rest)
      = runLines dec base method req st rest := by
  rw [runLines_cons_next (clientStep_dat_skip h1 h3 (Or.inr h2))]
  simp

/-- Witness for C6: an invalid payload mid-stream leaves the run
unchanged. -/
theorem c6_bad_payload_skipped_witness :
    classifyLine "data: @@notjson@@" = .dat "@@notjson@@" ∧
    demoDec "@@notjson@@" = none ∧
    runLines demoDec "http://h" "tools/list" ⟨1, "tools/list", .obj []⟩
        ⟨1, false, none, none⟩ ["data: @@notjson@@", "data: resp999"]
      = runLines demoDec "http://h" "tools/list" ⟨1, "tools/list", .obj []⟩
        ⟨1, false, none, none⟩ ["data: resp999"] := by
  refine ⟨by decide, rfl, ?_⟩
  exact c6_bad_payload_skipped demoDec "http://h" "tools/list"
    ⟨1, "tools/list", .obj []⟩ ⟨1, false, none, none⟩
    "data: @@notjson@@" ["data: resp999"] "@@notjson@@"
    (by decide) rfl (by simp)

/-- C7, counterexample: a connection-level transport failure and a clean
session that simply ends without a response yield the *same* caller-visible
value `none` — no distinct exception type reaches the caller of
`send_request` (the blanket handler at lines 146-150 returns `None`). -/
theorem c7_counterexample :
    (sendRequest demoDec "http://h" "tools/list" (.obj []) 0 false
        .connectError).ret = none ∧
    (sendRequest demoDec "http://h" "tools/list" (.obj []) 0 false
        (.opened 200 [] false)).ret = none := ⟨rfl, rfl⟩

/-- C7 (amended): every transport-level failure of a streaming-HTTP call
is swallowed and surfaced to the caller as the plain return value `None`,
indistinguishable from a tool-level miss: a connect failure returns `none`
(with the message id already consumed and nothing POSTed), a non-200
status returns `none`, and a stream that dies after its lines produces
exactly the outcome of one that ends cleanly. -/
theorem c7_transport_failure_swallowed (dec : String → Option Json)
    (base method : String) (params : Json) (m0 : Nat) (init : Bool) :
    (sendRequest dec base method params m0 init .connectError
      = ⟨m0 + 1, init, none, [], [], true⟩) ∧
    (∀ (status : Nat) (lines : List String) (readErr : Bool), status ≠ 200 →
      sendRequest dec base method params m0 init (.opened status lines readErr)
        = ⟨m0 + 1, init, none, [], [], false⟩) ∧
    (∀ (lines : List String),
      sendRequest dec base method params m0 init (.opened 200 lines true)
        = sendRequest dec base method params m0 init (.opened 200 lines false)) := by
  refine ⟨rfl, ?_, fun lines => rfl⟩
  intro status lines readErr h
  simp [sendRequest, h]

/-- Witness for C7 (amended): a 500 status yields the bare `none` result. -/
theorem c7_transport_failure_swallowed_witness :
    (500 : Nat) ≠ 200 ∧
    sendRequest demoDec "http://h" "tools/list" (.obj []) 0 false
        (.opened 500 demoLines false)
      = ⟨1, false, none, [], [], false⟩ := by
  refine ⟨by decide, ?_⟩
  exact (c7_transport_failure_swallowed demoDec "http://h" "tools/list"
    (.obj []) 0 false).2.1 500 demoLines false (by decide)

/-- C5, counterexample: dispatching an unregistered tool name returns an
ordinary text-content result whose text is `Error: Unknown tool '<name>'`
— which differs from the claimed `error.message` payload
`Unknown tool '<name>'`. -/
theorem c5_counterexample :
    call_tool (fun _ => []) (fun _ => []) "frobnicate" []
      = [⟨"text", "Error: Unknown tool 'frobnicate'"⟩] ∧
    "Error: Unknown tool 'frobnicate'" ≠ "Unknown tool 'frobnicate'" := by
  constructor
  · rfl
  · decide

/-- C5 (amended): for every tool name other than `get_weather` and
`get_forecast` and any arguments, `call_tool` returns — without raising —
the ordinary text-content result
`[TextContent(type="text", text="Error: Unknown tool '<name>'")]`
(line 277), not an `error`-typed response. -/
theorem c5_unknown_tool
    (handleWeather handleForecast : List (String × String) → List TextContent)
    (name : String) (arguments : List (String × String))
    (h1 : name ≠ "get_weather") (h2 : name ≠ "get_forecast") :
    call_tool handleWeather handleForecast name arguments
      = [⟨"text", "Error: Unknown tool '" ++ name ++ "'"⟩] := by
  simp [call_tool, h1, h2]

/-- Witness for C5 (amended). -/
theorem c5_unknown_tool_witness :
    ("frobnicate" : String) ≠ "get_weather" ∧
    ("frobnicate" : String) ≠ "get_forecast" ∧
    call_tool (fun _ => []) (fun _ => []) "frobnicate" []
      = [⟨"text", "Error: Unknown tool '" ++ "frobnicate" ++ "'"⟩] := by
  refine ⟨by decide, by decide, ?_⟩
  exact c5_unknown_tool (fun _ => []) (fun _ => []) "frobnicate" []
    (by decide) (by decide)

lemma lookup_eq_none_of_all_ne {β : Type} (k : String) :
    ∀ (d : List (String × β)), (∀ kv ∈ d, (k == kv.1) = false) →
      List.lookup k d = none := by
  intro d
  induction d with
  | nil => intro _; rfl
  | cons kv tl ih =>
    intro h
    obtain ⟨a, b⟩ := kv
    have ha : (k == a) = false := h (a, b) (by simp)
    simp only [List.lookup, ha]
    exact ih fun kv hkv => h kv (by simp [hkv])

lemma mem_of_lookup_eq_some {β : Type} {k : String} {v : β} :
    ∀ {d : List (String × β)}, List.lookup k d = some v → (k, v) ∈ d := by
  intro d
  induction d with
  | nil => intro h; cases h
  | cons kv tl ih =>
    intro h
    obtain ⟨a, b⟩ := kv
    cases hab : (k == a) with
    | true =>
      simp only [List.lookup, hab] at h
      cases h
      have : k = a := by simpa using hab
      subst this
      exact List.mem_cons_self _ _
    | false =>
      simp only [List.lookup, hab] at h
      exact List.mem_cons_of_mem _ (ih h)

lemma write_portfolio_positive (p : List (String × Int)) :
    positiveQuantities (write_portfolio p) := by
  intro kv hkv
  rw [write_portfolio, List.mem_filter] at hkv
  have := of_decide_eq_true hkv.2
  omega

lemma lookup_write_portfolio_dictDel (store : List (String × Int)) (k : String) :
    List.lookup k (write_portfolio (dictDel store k)) = none := by
  apply lookup_eq_none_of_all_ne
  intro kv hkv
  rw [write_portfolio, List.mem_filter] at hkv
  have hmem := hkv.1
  rw [dictDel, List.mem_filter] at hmem
  have hne := hmem.2
  rw [bne_iff_ne] at hne
  rw [beq_eq_false_iff_ne]
  exact fun he => hne he.symm

/-- C8: `write_portfolio` writes no row with a non-positive quantity, and
`buy_stock` / `sell_stock` preserve the invariant that every entry of the
stored portfolio has quantity at least 1; selling the entire held amount
removes the entry from the stored portfolio. -/
theorem c8_portfolio_invariant :
    (∀ (p : List (String × Int)), ∀ kv ∈ write_portfolio p, 0 < kv.2) ∧
    (∀ (store : List (String × Int)) (sid : String) (q : Int),
      positiveQuantities store →
      positiveQuantities (buy_stock store sid q).2 ∧
      positiveQuantities (sell_stock store sid q).2) ∧
    (∀ (store : List (String × Int)) (sid : String) (q : Int),
      positiveQuantities store →
      store.lookup (upperStrip sid) = some q →
      (sell_stock store sid q).2.lookup (upperStrip sid) = none) := by
  refine ⟨?_, ?_, ?_⟩
  · intro p kv hkv
    rw [write_portfolio, List.mem_filter] at hkv
    exact of_decide_eq_true hkv.2
  · intro store sid q hstore
    constructor
    · rw [buy_stock]
      by_cases h1 : q ≤ 0
      · rw [if_pos h1]
        exact hstore
      · rw [if_neg h1]
        exact write_portfolio_positive _
    · rw [sell_stock]
      by_cases h1 : q ≤ 0
      · rw [if_pos h1]
        exact hstore
      · rw [if_neg h1]
        cases hl : List.lookup (upperStrip sid) store with
        | none =>
          simp only [hl]
          exact hstore
        | some held =>
          simp only [hl]
          by_cases h2 : q > held
          · rw [if_pos h2]
            exact hstore
          · rw [if_neg h2]
            exact write_portfolio_positive _
  · intro store sid q hstore hlook
    have hq : 1 ≤ q := hstore _ (mem_of_lookup_eq_some hlook)
    have hsell : (sell_stock store sid q).2
        = write_portfolio (dictDel store (upperStrip sid)) := by
      rw [sell_stock, if_neg (by omega)]
      simp only [hlook]
      rw [if_neg (by omega), sub_self]
      simp
    rw [hsell]
    exact lookup_write_portfolio_dictDel store (upperStrip sid)

/-- Witness for C8 on a concrete portfolio. -/
theorem c8_portfolio_invariant_witness :
    positiveQuantities demoStore ∧
    demoStore.lookup (upperStrip "aapl") = some 25 ∧
    (sell_stock demoStore "aapl" 25).2.lookup (upperStrip "aapl") = none ∧
    positiveQuantities (buy_stock demoStore "msft" 5).2 := by
  have hpos : positiveQuantities demoStore := by
    unfold positiveQuantities
    decide
  refine ⟨hpos, by decide, ?_, ?_⟩
  · exact c8_portfolio_invariant.2.2 demoStore "aapl" 25 hpos (by decide)
  · exact (c8_portfolio_invariant.2.1 demoStore "msft" 5 hpos).1

lemma round2_idem (x : ℚ) : round2 (round2 x) = round2 x := by
  unfold round2
  have h : (100 : ℚ) * ((round (100 * x) : ℤ) / 100)
      = ((round (100 * x) : ℤ) : ℚ) := by
    field_simp
  rw [h, round_intCast]

/-- C9: `debit_money` is atomic on failure — for a stored balance `b` and
amount `a`, if `a ≤ 0` or `a > b` the result reports `success = false` and
the stored balance is unchanged; otherwise it reports `success = true` and
the stored balance becomes `round(b - a, 2)`. -/
theorem c9_debit_atomicity (fmt : ℚ → String) (b a : ℚ) (reason : String) :
    ((a ≤ 0 ∨ b < a) →
      (debit_money fmt b a reason).1.success = false ∧
      (debit_money fmt b a reason).2 = b) ∧
    (0 < a → a ≤ b →
      (debit_money fmt b a reason).1.success = true ∧
      (debit_money fmt b a reason).2 = round2 (b - a)) := by
  constructor
  · intro h
    by_cases h0 : a ≤ 0
    · rw [debit_money, if_pos h0]
      exact ⟨rfl, rfl⟩
    · have hba : a > b := by
        rcases h with h | h
        · exact absurd h h0
        · exact h
      rw [debit_money, if_neg h0, if_pos hba]
      exact ⟨rfl, rfl⟩
  · intro h1 h2
    have h0 : ¬(a ≤ 0) := by linarith
    have h3 : ¬(a > b) := by linarith
    rw [debit_money, if_neg h0, if_neg h3]
    exact ⟨rfl, by simp only [write_balance, round2_idem]⟩

/-- Witness for C9: a successful debit of 30 from 100 stores 70; a failed
debit (insufficient funds) leaves the balance unchanged. -/
theorem c9_debit_atomicity_witness :
    (0 : ℚ) < 30 ∧ (30 : ℚ) ≤ 100 ∧
    (debit_money fmt0 100 30 "").1.success = true ∧
    (debit_money fmt0 100 30 "").2 = round2 (100 - 30) ∧
    round2 ((100 : ℚ) - 30) = 70 ∧
    (debit_money fmt0 100 500 "").1.success = false ∧
    (debit_money fmt0 100 500 "").2 = 100 := by
  have hok := (c9_debit_atomicity fmt0 100 30 "").2 (by norm_num) (by norm_num)
  have hfail := (c9_debit_atomicity fmt0 100 500 "").1 (by norm_num)
  exact ⟨by norm_num, by norm_num, hok.1, hok.2,
         by norm_num [round2, round_eq], hfail.1, hfail.2⟩

lemma foldl_min_le_init (l : List ℚ) : ∀ a : ℚ, l.foldl min a ≤ a := by
  induction l with
  | nil => intro a; simp
  | cons x xs ih =>
    intro a
    calc xs.foldl min (min a x) ≤ min a x := ih _
      _ ≤ a := min_le_left _ _

lemma foldl_min_le_mem (l : List ℚ) : ∀ (a s : ℚ), s ∈ l → l.foldl min a ≤ s := by
  induction l with
  | nil => intro a s h; cases h
  | cons x xs ih =>
    intro a s hs
    rcases List.mem_cons.mp hs with h | h
    · subst h
      calc xs.foldl min (min a s) ≤ min a s := foldl_min_le_init _ _
        _ ≤ s := min_le_right _ _
    · exact ih _ s h

lemma foldl_min_mem (l : List ℚ) : ∀ a : ℚ, l.foldl min a ∈ a :: l := by
  induction l with
  | nil => intro a; simp
  | cons x xs ih =>
    intro a
    have hfold : (x :: xs).foldl min a = xs.foldl min (min a x) := rfl
    rw [hfold]
    rcases List.mem_cons.mp (ih (min a x)) with h | h
    · rcases min_choice a x with hc | hc
      · rw [h, hc]
        exact List.mem_cons_self _ _
      · rw [h, hc]
        exact List.mem_cons_of_mem _ (List.mem_cons_self _ _)
    · exact List.mem_cons_of_mem _ (List.mem_cons_of_mem _ h)

/-- C10: an empty or whitespace-only query makes `document_search` return
exactly `max_score = 1.0, chunks = []` without issuing any vector-store
query; on a non-empty result set, the chunks are the page contents of the
results, one store query is issued, `max_score` is the minimum of the
similarity scores of the returned chunks, and there are at most as many
chunks as the store returns for `k = 3` (hence at most 3). -/
theorem c10_document_search (search : String → Nat → List (String × ℚ))
    (query : String) :
    ((query = "" ∨ pyStrip query = "") →
      document_search search query = (⟨1, []⟩, 0)) ∧
    (¬(query = "" ∨ pyStrip query = "") → search query 3 ≠ [] →
      (document_search search query).1.chunks = (search query 3).map Prod.fst ∧
      (document_search search query).2 = 1 ∧
      (document_search search query).1.max_score
        ∈ (search query 3).map Prod.snd ∧
      (∀ s ∈ (search query 3).map Prod.snd,
        (document_search search query).1.max_score ≤ s) ∧
      ((search query 3).length ≤ 3 →
        (document_search search query).1.chunks.length ≤ 3)) := by
  constructor
  · intro h
    rw [document_search, if_pos h]
  · intro h hne
    have hds : document_search search query
        = (⟨pyMin ((search query 3).map Prod.snd),
            (search query 3).map Prod.fst⟩, 1) := by
      rw [document_search, if_neg h]
      simp [hne]
    rw [hds]
    obtain ⟨r, rs, hr⟩ : ∃ r rs, search query 3 = r :: rs := by
      cases hsq : search query 3 with
      | nil => exact absurd hsq hne
      | cons r rs => exact ⟨r, rs, rfl⟩
    rw [hr]
    simp only [List.map_cons]
    refine ⟨trivial, trivial, ?_, ?_, ?_⟩
    · exact foldl_min_mem (rs.map Prod.snd) r.2
    · intro s hs
      rcases List.mem_cons.mp hs with h' | h'
      · rw [h']
        exact foldl_min_le_init _ _
      · exact foldl_min_le_mem _ _ s h'
    · intro hlen
      simpa using hlen

/-- Witness for C10 on a concrete store and queries. -/
theorem c10_document_search_witness :
    ¬(("hello" : String) = "" ∨ pyStrip "hello" = "") ∧
    demoSearch "hello" 3 ≠ [] ∧
    (document_search demoSearch "hello").1.chunks
      = (demoSearch "hello" 3).map Prod.fst ∧
    (document_search demoSearch "hello").1.max_score
      ∈ (demoSearch "hello" 3).map Prod.snd ∧
    document_search demoSearch "   " = (⟨1, []⟩, 0) := by
  have h := (c10_document_search demoSearch "hello").2 (by decide) (by decide)
  refine ⟨by decide, by decide, h.1, h.2.2.1, ?_⟩
  exact (c10_document_search demoSearch "   ").1 (Or.inr (by decide))
